import Mathlib

/-!
# go-traceroute: shallow embedding and verification

Shallow embedding of `traceroute.go` (package `traceroute`) and proofs about
its `Trace` loop, `receiveICMP` classifier, and hop recording.

Modelling conventions:
* Network and OS effects are abstracted into per-iteration environment events
  (`SendEvent`, `ListenEvent`): each constructor corresponds to one failure
  exit of the Go code, plus `SendEvent.ok` / `ListenEvent.packet` for the
  successful paths.  The latency measured by `time.Since` and the reverse-DNS
  answer of `net.LookupAddr` are environment inputs (`latencyMs`, `lookup`).
* `ipv4.ICMPType` is an `Int`; the Go constants are `ICMPTypeTimeExceeded = 11`
  and `ICMPTypeDestinationUnreachable = 3`; error exits of `receiveICMP`
  return the zero value `0`, and `UnexpectedICMPType = -1`.
* `Hop.Latency` is the measured elapsed time in milliseconds, carried through
  opaquely (Go stores a `float64`; no arithmetic on it is modelled).
* The buffered `ResultChan` is modelled as the ordered list `chan` of hops
  published during the run; `traceResult.Hops` is the list `hops`.
* Go's unbounded `for {}` loop is run on fuel; termination theorems show the
  loop always answers within the fuel bound derived from `MaxTTL`.
* Each loop iteration begins with `net.ResolveUDPAddr`, i.e. network I/O, so
  the `iterations` counter of a run doubles as its network-I/O witness:
  `iterations = 0` means no resolve/dial/send/listen was performed.
-/

namespace Traceroute

/-- `ipv4.ICMPTypeDestinationUnreachable` from golang.org/x/net/ipv4. -/
def ICMPTypeDestinationUnreachable : Int := 3

/-- `ipv4.ICMPTypeTimeExceeded` from golang.org/x/net/ipv4. -/
def ICMPTypeTimeExceeded : Int := 11

/-- `const UnexpectedICMPType = -1` — represents an unexpected ICMP type. -/
def UnexpectedICMPType : Int := -1

/-- Tracer struct: configuration for one trace (`ResultChan` is modelled as
the run output list instead of a field). `Timeout` is opaque (milliseconds). -/
structure Tracer where
  Address : String
  Port : Int
  StartTTL : Int
  MaxTTL : Int
  Timeout : Int
  DNSLookup : Bool
  deriving Repr, DecidableEq

/-- Type Hop represents a single hop in a traceroute. -/
structure Hop where
  TTL : Int
  Address : String
  Host : String
  Latency : Int
  Reachable : Bool
  deriving Repr, DecidableEq

/-- TraceResult holds the hops collected during a trace. -/
structure TraceResult where
  Hops : List Hop
  deriving Repr, DecidableEq

/-- `New` creates a tracer instance with default settings
(port 33434, StartTTL 1, MaxTTL 30, timeout 3s, DNS lookup on). -/
def New : Tracer :=
  { Address := ""
    Port := 33434
    StartTTL := 1
    MaxTTL := 30
    Timeout := 3000
    DNSLookup := true }

/-- Outcome of the transmit half of one loop iteration: which of the Go error
exits (resolve / dial / SyscallConn / Control / Write) fired, or none. -/
inductive SendEvent where
  | resolveFail
  | dialFail
  | syscallConnFail
  | controlFail
  | writeFail
  | ok
  deriving Repr, DecidableEq

/-- Outcome of the listening socket for one iteration: which error exit of
`receiveICMP` fired, or the packet that `ReadFrom` + `ParseMessage` produced.
`readFail` covers every `ReadFrom` error, including expiry of the read
deadline (the per-hop timeout). `packet peer ty` carries the peer address
string (`addr:port`, as produced by `peer.String()`) and the parsed ICMP
message type. -/
inductive ListenEvent where
  | listenFail
  | deadlineFail
  | readFail
  | parseFail
  | packet (peer : String) (icmpType : Int)
  deriving Repr, DecidableEq

/-- Environment for one loop iteration: transmit outcome, listen outcome, the
latency measured by `time.Since(startTime)` (ms), and the reverse-DNS oracle
used by `net.LookupAddr` when `DNSLookup` is enabled. -/
structure HopEnv where
  send : SendEvent
  listen : ListenEvent
  latencyMs : Int
  lookup : String → List String

/-- `strings.Split(peer.String(), ":")` followed by taking element `0`: the
maximal prefix of the peer string before the first colon. -/
def addressOf (peer : String) : String :=
  String.mk (peer.toList.takeWhile (fun c => c ≠ ':'))

/-- `receiveICMP` — returns the responder address, the relevant ICMP type and
any error, mirroring the Go function exit by exit: every error exit returns
`("*", 0, err)`; a parsed packet is classified by its type; the address is
the host part of `peer.String()` (split on the first colon, `addressOf`). -/
def receiveICMP (ev : ListenEvent) : String × Int × Option String :=
  match ev with
  | ListenEvent.listenFail => ("*", 0, some "listen packet error")
  | ListenEvent.deadlineFail => ("*", 0, some "set read deadline error")
  | ListenEvent.readFail => ("*", 0, some "read from error")
  | ListenEvent.parseFail => ("*", 0, some "parse message error")
  | ListenEvent.packet peer ty =>
    let address := addressOf peer
    if ty = ICMPTypeTimeExceeded then
      (address, ICMPTypeTimeExceeded, none)
    else if ty = ICMPTypeDestinationUnreachable then
      (address, ICMPTypeDestinationUnreachable, none)
    else
      ("*", UnexpectedICMPType, some "unexpected ICMP message type received")

/-- Mutable state of the `Trace` loop: current `ttl`, the accumulated
`traceResult.Hops`, and the hops published so far on `ResultChan`. -/
structure TraceState where
  ttl : Int
  hops : List Hop
  chan : List Hop
  deriving Repr, DecidableEq

/-- The Hop literal built by the listener goroutine (traceroute.go lines
109–122): address and classification from `receiveICMP`, latency from the
timer, host from `net.LookupAddr` when `DNSLookup` is set (`strings.Join`
with `", "`), `Reachable` iff the type is `ICMPTypeTimeExceeded`. -/
def mkHop (t : Tracer) (ttl : Int) (e : HopEnv) : Hop :=
  let r := receiveICMP e.listen
  let hopAddr := r.1
  let response := r.2.1
  let host := if t.DNSLookup then e.lookup hopAddr else []
  { TTL := ttl
    Address := hopAddr
    Host := String.intercalate ", " host
    Latency := e.latencyMs
    Reachable := response = ICMPTypeTimeExceeded }

/-- Result of one loop iteration: either `Trace` returns
(`done hops chan err`), or the loop continues with the next state. -/
inductive StepResult where
  | done (hops chan : List Hop) (err : Option String)
  | next (s : TraceState)
  deriving Repr, DecidableEq

/-- One iteration of the `for {}` loop in `Trace`:
resolve/dial/SyscallConn/Control failures and a `Write` failure each return
the accumulated result with a wrapped error; otherwise the listener goroutine
runs `receiveICMP`, records a hop whenever `response != UnexpectedICMPType`
(also publishing it on `ResultChan`), and signals `cancelChan` when
`err != nil` or the response is `ICMPTypeDestinationUnreachable`; the loop
then increments `ttl`, breaks (returning `nil` error) when `ttl > MaxTTL`,
and otherwise returns `nil` error if `cancelChan` was signalled. -/
def traceStep (t : Tracer) (s : TraceState) (e : HopEnv) : StepResult :=
  match e.send with
  | SendEvent.resolveFail => StepResult.done s.hops s.chan (some "resolving error")
  | SendEvent.dialFail => StepResult.done s.hops s.chan (some "dial error")
  | SendEvent.syscallConnFail => StepResult.done s.hops s.chan (some "syscall connection error")
  | SendEvent.controlFail => StepResult.done s.hops s.chan (some "syscall connection error")
  | SendEvent.writeFail => StepResult.done s.hops s.chan (some "write error")
  | SendEvent.ok =>
    let r := receiveICMP e.listen
    let response := r.2.1
    let err := r.2.2
    let hops := if response ≠ UnexpectedICMPType then s.hops ++ [mkHop t s.ttl e] else s.hops
    let chan := if response ≠ UnexpectedICMPType then s.chan ++ [mkHop t s.ttl e] else s.chan
    let ttl1 := s.ttl + 1
    if ttl1 > t.MaxTTL then
      StepResult.done hops chan none
    else if err ≠ none ∨ response = ICMPTypeDestinationUnreachable then
      StepResult.done hops chan none
    else
      StepResult.next { ttl := ttl1, hops := hops, chan := chan }

/-- What one run of `Trace` produced: the returned `TraceResult.Hops`, the
hops published on `ResultChan` in order, the returned error, and how many
loop iterations were begun (each begun iteration performs network I/O,
starting with `net.ResolveUDPAddr`). -/
structure RunOutcome where
  hops : List Hop
  chan : List Hop
  err : Option String
  iterations : Nat
  deriving Repr, DecidableEq

/-- The `for {}` loop of `Trace`, run on fuel. `i` is the index of the
current iteration (iteration `i` consumes environment `env i`); `none`
means the fuel ran out before the loop returned. -/
def traceLoop (t : Tracer) (env : Nat → HopEnv) :
    Nat → Nat → TraceState → Option RunOutcome
  | 0, _, _ => none
  | Nat.succ fuel, i, s =>
    match traceStep t s (env i) with
    | StepResult.done hops chan err =>
      some { hops := hops, chan := chan, err := err, iterations := i + 1 }
    | StepResult.next s1 => traceLoop t env fuel (i + 1) s1

/-- `Trace` — validates `StartTTL`, `Address` and `Port` before any I/O
(returning the corresponding error with an empty result), then runs the
TTL loop starting from `ttl = StartTTL` with empty accumulators. -/
def Trace (t : Tracer) (env : Nat → HopEnv) (fuel : Nat) : Option RunOutcome :=
  if t.StartTTL < 1 then
    some { hops := [], chan := [],
           err := some "value of StartTTL must be at least 1", iterations := 0 }
  else if t.Address = "" then
    some { hops := [], chan := [],
           err := some "value of Address must be specified", iterations := 0 }
  else if t.Port < 1 ∨ t.Port > 65535 then
    some { hops := [], chan := [],
           err := some "value of Port must be between 1 and 65535", iterations := 0 }
  else
    traceLoop t env fuel 0 { ttl := t.StartTTL, hops := [], chan := [] }

/-! ## Step characterization lemmas -/

/-- `receiveICMP` returns a nil error only for the two valid
classifications. -/
theorem receiveICMP_err_none (ev : ListenEvent)
    (h : (receiveICMP ev).2.2 = none) :
    (receiveICMP ev).2.1 = ICMPTypeTimeExceeded ∨
    (receiveICMP ev).2.1 = ICMPTypeDestinationUnreachable := by
  cases ev with
  | listenFail => simp [receiveICMP] at h
  | deadlineFail => simp [receiveICMP] at h
  | readFail => simp [receiveICMP] at h
  | parseFail => simp [receiveICMP] at h
  | packet peer ty =>
    simp only [receiveICMP] at h ⊢
    split_ifs at h ⊢ with h11 h3
    · exact Or.inl rfl
    · exact Or.inr rfl

/-- On the successful transmit path, `traceStep` is the recording +
termination decision of the goroutine and loop tail, spelled out. -/
theorem traceStep_ok (t : Tracer) (s : TraceState) (e : HopEnv)
    (hs : e.send = SendEvent.ok) :
    traceStep t s e =
      (if s.ttl + 1 > t.MaxTTL then
        StepResult.done
          (if (receiveICMP e.listen).2.1 ≠ UnexpectedICMPType then
            s.hops ++ [mkHop t s.ttl e] else s.hops)
          (if (receiveICMP e.listen).2.1 ≠ UnexpectedICMPType then
            s.chan ++ [mkHop t s.ttl e] else s.chan)
          none
      else if (receiveICMP e.listen).2.2 ≠ none ∨
          (receiveICMP e.listen).2.1 = ICMPTypeDestinationUnreachable then
        StepResult.done
          (if (receiveICMP e.listen).2.1 ≠ UnexpectedICMPType then
            s.hops ++ [mkHop t s.ttl e] else s.hops)
          (if (receiveICMP e.listen).2.1 ≠ UnexpectedICMPType then
            s.chan ++ [mkHop t s.ttl e] else s.chan)
          none
      else
        StepResult.next
          { ttl := s.ttl + 1
            hops := s.hops ++ [mkHop t s.ttl e]
            chan := s.chan ++ [mkHop t s.ttl e] }) := by
  obtain ⟨se, le, lat, lk⟩ := e
  simp only at hs
  subst hs
  show (let r := receiveICMP le
        let response := r.2.1
        let err := r.2.2
        let hops := if response ≠ UnexpectedICMPType then
          s.hops ++ [mkHop t s.ttl ⟨SendEvent.ok, le, lat, lk⟩] else s.hops
        let chan := if response ≠ UnexpectedICMPType then
          s.chan ++ [mkHop t s.ttl ⟨SendEvent.ok, le, lat, lk⟩] else s.chan
        let ttl1 := s.ttl + 1
        if ttl1 > t.MaxTTL then StepResult.done hops chan none
        else if err ≠ none ∨ response = ICMPTypeDestinationUnreachable then
          StepResult.done hops chan none
        else StepResult.next { ttl := ttl1, hops := hops, chan := chan }) = _
  simp only []
  split
  · rfl
  · split
    · rfl
    · rename_i hmax hcond
      push_neg at hcond
      have hrec : (receiveICMP le).2.1 ≠ UnexpectedICMPType := by
        rcases receiveICMP_err_none le hcond.1 with h1 | h1 <;> rw [h1] <;> decide
      simp [hrec]

/-- A failing transmit path (resolve, dial, `SyscallConn`, `Control`, or
`Write`) returns the accumulated result untouched with a non-nil error. -/
theorem traceStep_sendFail (t : Tracer) (s : TraceState) (e : HopEnv)
    (h : e.send ≠ SendEvent.ok) :
    ∃ msg, traceStep t s e = StepResult.done s.hops s.chan (some msg) := by
  cases hs : e.send <;> simp_all [traceStep]

/-- Shape of a continuing step: only possible on the ok transmit path, with
`ttl` incremented and still within `MaxTTL`, with the hop recorded and
published, and with classification `ICMPTypeTimeExceeded`. -/
theorem traceStep_next_shape (t : Tracer) (s : TraceState) (e : HopEnv)
    (s1 : TraceState) (h : traceStep t s e = StepResult.next s1) :
    e.send = SendEvent.ok ∧
    s1.ttl = s.ttl + 1 ∧ s.ttl + 1 ≤ t.MaxTTL ∧
    s1.hops = s.hops ++ [mkHop t s.ttl e] ∧
    s1.chan = s.chan ++ [mkHop t s.ttl e] ∧
    (receiveICMP e.listen).2.2 = none ∧
    (receiveICMP e.listen).2.1 = ICMPTypeTimeExceeded := by
  by_cases hs : e.send = SendEvent.ok
  · rw [traceStep_ok t s e hs] at h
    split at h
    · exact absurd h (by simp)
    · split at h
      · exact absurd h (by simp)
      · rename_i hmax hcond
        push_neg at hcond
        obtain ⟨herr, hne⟩ := hcond
        have hst : s1 =
            { ttl := s.ttl + 1
              hops := s.hops ++ [mkHop t s.ttl e]
              chan := s.chan ++ [mkHop t s.ttl e] } := by
          simpa using h.symm
        subst hst
        have h11 : (receiveICMP e.listen).2.1 = ICMPTypeTimeExceeded := by
          rcases receiveICMP_err_none e.listen herr with h1 | h1
          · exact h1
          · exact absurd h1 hne
        exact ⟨hs, rfl, by omega, rfl, rfl, herr, h11⟩
  · obtain ⟨msg, hm⟩ := traceStep_sendFail t s e hs
    rw [hm] at h
    exact absurd h (by simp)

/-- Shape of a stopping step: the returned accumulators extend the state's,
and on the ok transmit path the returned error is `nil`. -/
theorem traceStep_done_shape (t : Tracer) (s : TraceState) (e : HopEnv)
    (hops chan : List Hop) (err : Option String)
    (h : traceStep t s e = StepResult.done hops chan err) :
    ((hops = s.hops ∧ chan = s.chan) ∨
      (hops = s.hops ++ [mkHop t s.ttl e] ∧ chan = s.chan ++ [mkHop t s.ttl e])) ∧
    (e.send = SendEvent.ok → err = none) := by
  by_cases hs : e.send = SendEvent.ok
  · rw [traceStep_ok t s e hs] at h
    split at h
    · split at h <;> simp_all
    · split at h
      · split at h <;> simp_all
      · exact absurd h (by simp)
  · obtain ⟨msg, hm⟩ := traceStep_sendFail t s e hs
    rw [hm] at h
    simp only [StepResult.done.injEq] at h
    exact ⟨Or.inl ⟨h.1.symm, h.2.1.symm⟩, fun hok => absurd hok hs⟩

/-! ## Run-level shape and termination lemmas -/

/-- The hop that iteration `j` of a run records: TTL `StartTTL + j`, built
from environment `env j`. -/
def runHop (t : Tracer) (env : Nat → HopEnv) (j : Nat) : Hop :=
  mkHop t (t.StartTTL + (j : Int)) (env j)

/-- Any answer of the loop has `chan = hops`, and `hops` is exactly the list
of per-iteration hops `runHop 0, …, runHop (m-1)` for some `m`. -/
theorem traceLoop_shape (t : Tracer) (env : Nat → HopEnv) :
    ∀ (fuel i : Nat) (s : TraceState) (out : RunOutcome),
      s.ttl = t.StartTTL + (i : Int) →
      s.chan = s.hops →
      s.hops = (List.range i).map (runHop t env) →
      traceLoop t env fuel i s = some out →
      ∃ m : Nat, out.chan = out.hops ∧
        out.hops = (List.range m).map (runHop t env) := by
  intro fuel
  induction fuel with
  | zero =>
    intro i s out _ _ _ h
    simp [traceLoop] at h
  | succ fuel ih =>
    intro i s out httl hchan hhops h
    simp only [traceLoop] at h
    cases hstep : traceStep t s (env i) with
    | done hops chan err =>
      rw [hstep] at h
      simp only [Option.some.injEq] at h
      obtain ⟨hsh, _⟩ := traceStep_done_shape t s (env i) hops chan err hstep
      rcases hsh with ⟨h1, h2⟩ | ⟨h1, h2⟩
      · exact ⟨i, by rw [← h, h2, h1, hchan], by rw [← h, h1, hhops]⟩
      · refine ⟨i + 1, by rw [← h, h2, h1, hchan], ?_⟩
        rw [← h, h1, hhops, List.range_succ, List.map_append, List.map_cons,
          List.map_nil]
        simp only [runHop, httl]
    | next s1 =>
      rw [hstep] at h
      obtain ⟨_, httl1, _, hh1, hc1, _, _⟩ :=
        traceStep_next_shape t s (env i) s1 hstep
      refine ih (i + 1) s1 out ?_ ?_ ?_ h
      · rw [httl1, httl]
        push_cast
        ring
      · rw [hc1, hh1, hchan]
      · rw [hh1, hhops, List.range_succ, List.map_append, List.map_cons,
          List.map_nil]
        simp only [runHop, httl]

/-- With fuel at least `(MaxTTL - ttl).toNat + 1` the loop always answers,
having begun at most that many further iterations. -/
theorem traceLoop_total (t : Tracer) (env : Nat → HopEnv) :
    ∀ (fuel i : Nat) (s : TraceState),
      (t.MaxTTL - s.ttl).toNat + 1 ≤ fuel →
      ∃ out : RunOutcome, traceLoop t env fuel i s = some out ∧
        out.iterations ≤ i + (t.MaxTTL - s.ttl).toNat + 1 := by
  intro fuel
  induction fuel with
  | zero =>
    intro i s hf
    exact absurd hf (Nat.not_succ_le_zero _)
  | succ fuel ih =>
    intro i s hf
    simp only [traceLoop]
    cases hstep : traceStep t s (env i) with
    | done hops chan err =>
      exact ⟨_, rfl, by simp⟩
    | next s1 =>
      obtain ⟨_, httl1, hle, _, _, _, _⟩ :=
        traceStep_next_shape t s (env i) s1 hstep
      have hrec : (t.MaxTTL - s1.ttl).toNat + 1 ≤ fuel := by
        rw [httl1]
        omega
      obtain ⟨out, hout, hiter⟩ := ih (i + 1) s1 hrec
      refine ⟨out, hout, ?_⟩
      rw [httl1] at hiter
      omega

/-! ## DNS-lookup scrubbing simulation -/

/-- Erase the `Host` field of a hop (what disabling `DNSLookup` changes). -/
def scrubHost (h : Hop) : Hop := { h with Host := "" }

/-- Erase the `Host` fields of a loop state. -/
def scrubState (s : TraceState) : TraceState :=
  { ttl := s.ttl, hops := s.hops.map scrubHost, chan := s.chan.map scrubHost }

/-- Erase the `Host` fields of a step result. -/
def scrubStep : StepResult → StepResult
  | StepResult.done hops chan err =>
    StepResult.done (hops.map scrubHost) (chan.map scrubHost) err
  | StepResult.next s => StepResult.next (scrubState s)

/-- Erase the `Host` fields of a run outcome. -/
def scrubOutcome (o : RunOutcome) : RunOutcome :=
  { hops := o.hops.map scrubHost
    chan := o.chan.map scrubHost
    err := o.err
    iterations := o.iterations }

/-- With `DNSLookup` disabled the recorded hop is the same hop with an empty
`Host` (`strings.Join` of no lookup results). -/
theorem mkHop_noDNS (t : Tracer) (ttl : Int) (e : HopEnv) :
    mkHop { t with DNSLookup := false } ttl e = scrubHost (mkHop t ttl e) := by
  simp [mkHop, scrubHost, String.intercalate]

/-- One loop iteration with `DNSLookup` disabled simulates the same iteration
with it enabled, modulo erasing `Host` fields. -/
theorem traceStep_scrub (t : Tracer) (s : TraceState) (e : HopEnv) :
    traceStep { t with DNSLookup := false } (scrubState s) e =
      scrubStep (traceStep t s e) := by
  obtain ⟨se, le, lat, lk⟩ := e
  cases se with
  | ok =>
    rw [traceStep_ok _ _ _ rfl, traceStep_ok _ _ _ rfl]
    simp only [scrubState]
    split_ifs <;>
      simp [scrubStep, scrubState, mkHop_noDNS, List.map_append]
  | resolveFail => rfl
  | dialFail => rfl
  | syscallConnFail => rfl
  | controlFail => rfl
  | writeFail => rfl

/-- The whole loop with `DNSLookup` disabled simulates the loop with it
enabled, modulo erasing `Host` fields. -/
theorem traceLoop_scrub (t : Tracer) (env : Nat → HopEnv) :
    ∀ (fuel i : Nat) (s : TraceState),
      traceLoop { t with DNSLookup := false } env fuel i (scrubState s) =
        (traceLoop t env fuel i s).map scrubOutcome := by
  intro fuel
  induction fuel with
  | zero => intro i s; rfl
  | succ fuel ih =>
    intro i s
    simp only [traceLoop, traceStep_scrub]
    cases hstep : traceStep t s (env i) with
    | done hops chan err => simp [scrubStep, scrubOutcome]
    | next s1 => simpa [scrubStep] using ih (i + 1) s1

/-- `Trace` with `DNSLookup` disabled returns exactly the outcome of the run
with it enabled, with every `Host` field erased. -/
theorem Trace_scrub (t : Tracer) (env : Nat → HopEnv) (fuel : Nat) :
    Trace { t with DNSLookup := false } env fuel =
      (Trace t env fuel).map scrubOutcome := by
  unfold Trace
  split_ifs
  · rfl
  · rfl
  · rfl
  · simpa [scrubState] using
      traceLoop_scrub t env fuel 0 { ttl := t.StartTTL, hops := [], chan := [] }

/-! ## Claim C1 -/

/-- Claim C1: after each hop on the successful transmit path, `Trace` stops
and returns the accumulated result with a nil error exactly when the listener
reported a hard error or classified the response as destination unreachable,
or when the incremented TTL exceeds `MaxTTL`; otherwise the loop continues at
TTL + 1 with the hop recorded and published. -/
theorem trace_termination_decision (t : Tracer) (s : TraceState) (e : HopEnv)
    (hs : e.send = SendEvent.ok) :
    (((receiveICMP e.listen).2.2 ≠ none ∨
        (receiveICMP e.listen).2.1 = ICMPTypeDestinationUnreachable ∨
        t.MaxTTL < s.ttl + 1) →
      ∃ hops chan, traceStep t s e = StepResult.done hops chan none ∧
        ∃ tail, hops = s.hops ++ tail) ∧
    (¬ ((receiveICMP e.listen).2.2 ≠ none ∨
        (receiveICMP e.listen).2.1 = ICMPTypeDestinationUnreachable ∨
        t.MaxTTL < s.ttl + 1) →
      traceStep t s e = StepResult.next
        { ttl := s.ttl + 1
          hops := s.hops ++ [mkHop t s.ttl e]
          chan := s.chan ++ [mkHop t s.ttl e] }) := by
  rw [traceStep_ok t s e hs]
  constructor
  · intro hstop
    by_cases h1 : s.ttl + 1 > t.MaxTTL
    · rw [if_pos h1]
      by_cases hr : (receiveICMP e.listen).2.1 ≠ UnexpectedICMPType
      · rw [if_pos hr, if_pos hr]
        exact ⟨_, _, rfl, ⟨[mkHop t s.ttl e], rfl⟩⟩
      · rw [if_neg hr, if_neg hr]
        exact ⟨_, _, rfl, ⟨[], by simp⟩⟩
    · rw [if_neg h1]
      have h2 : (receiveICMP e.listen).2.2 ≠ none ∨
          (receiveICMP e.listen).2.1 = ICMPTypeDestinationUnreachable := by
        rcases hstop with h | h | h
        · exact Or.inl h
        · exact Or.inr h
        · exact absurd h (by omega)
      rw [if_pos h2]
      by_cases hr : (receiveICMP e.listen).2.1 ≠ UnexpectedICMPType
      · rw [if_pos hr, if_pos hr]
        exact ⟨_, _, rfl, ⟨[mkHop t s.ttl e], rfl⟩⟩
      · rw [if_neg hr, if_neg hr]
        exact ⟨_, _, rfl, ⟨[], by simp⟩⟩
  · intro hcont
    push_neg at hcont
    obtain ⟨herr, hdu, hmax⟩ := hcont
    rw [if_neg (by omega : ¬ s.ttl + 1 > t.MaxTTL),
      if_neg (by simp [herr, hdu] :
        ¬ ((receiveICMP e.listen).2.2 ≠ none ∨
          (receiveICMP e.listen).2.1 = ICMPTypeDestinationUnreachable))]

/-- Fixture for the C1 witness. -/
def c1st : TraceState := { ttl := 1, hops := [], chan := [] }

/-- Fixture for the C1 witness: a destination-unreachable response. -/
def c1env : HopEnv :=
  { send := SendEvent.ok
    listen := ListenEvent.packet "9.9.9.9:0" 3
    latencyMs := 5
    lookup := fun _ => [] }

/-- Witness for C1 at a concrete destination-unreachable hop. -/
theorem trace_termination_decision_witness :
    ∃ hops chan, traceStep New c1st c1env = StepResult.done hops chan none ∧
      ∃ tail, hops = c1st.hops ++ tail :=
  (trace_termination_decision New c1st c1env rfl).1 (Or.inr (Or.inl (by decide)))

/-! ## Claim C2 -/

/-- Claim C2: a configuration with `StartTTL < 1`, an empty `Address`, or a
`Port` outside `[1, 65535]` makes `Trace` return a non-nil validation error
with an empty result, before any loop iteration (so no network I/O). -/
theorem trace_validation_rejects (t : Tracer) (env : Nat → HopEnv) (fuel : Nat)
    (h : t.StartTTL < 1 ∨ t.Address = "" ∨ t.Port < 1 ∨ t.Port > 65535) :
    ∃ msg : String,
      Trace t env fuel =
        some { hops := [], chan := [], err := some msg, iterations := 0 } := by
  unfold Trace
  split_ifs with h1 h2 h3
  · exact ⟨_, rfl⟩
  · exact ⟨_, rfl⟩
  · exact ⟨_, rfl⟩
  · rcases h with h | h | h | h
    · exact absurd h h1
    · exact absurd h h2
    · exact absurd (Or.inl h) h3
    · exact absurd (Or.inr h) h3

/-- Fixture for the C2 witness: default settings, `StartTTL` set to `0`. -/
def c2cfg : Tracer := { New with Address := "8.8.8.8", StartTTL := 0 }

/-- Fixture for the C2 witness. -/
def c2env : Nat → HopEnv :=
  fun _ =>
    { send := SendEvent.ok
      listen := ListenEvent.readFail
      latencyMs := 1
      lookup := fun _ => [] }

/-- Witness for C2 at `StartTTL = 0`. -/
theorem trace_validation_rejects_witness :
    ∃ msg : String,
      Trace c2cfg c2env 5 =
        some { hops := [], chan := [], err := some msg, iterations := 0 } :=
  trace_validation_rejects c2cfg c2env 5 (Or.inl (by decide))

/-! ## Claim C3 -/

/-- Claim C3: a hop produced at iteration `j` of a trace has `Reachable =
true` iff that iteration's ICMP classification was `ICMPTypeTimeExceeded`;
it is `false` for destination unreachable, timeouts, and every other
trace-ending outcome. -/
theorem hop_reachable_iff_time_exceeded (t : Tracer) (env : Nat → HopEnv)
    (fuel : Nat) (out : RunOutcome) (h : Trace t env fuel = some out)
    (j : Nat) (hop : Hop) (hj : out.hops.get? j = some hop) :
    hop.Reachable = true ↔
      (receiveICMP (env j).listen).2.1 = ICMPTypeTimeExceeded := by
  unfold Trace at h
  split_ifs at h with h1 h2 h3
  · simp only [Option.some.injEq] at h
    rw [← h] at hj
    simp at hj
  · simp only [Option.some.injEq] at h
    rw [← h] at hj
    simp at hj
  · simp only [Option.some.injEq] at h
    rw [← h] at hj
    simp at hj
  · obtain ⟨m, hchan, hhops⟩ :=
      traceLoop_shape t env fuel 0 _ out (by simp) rfl rfl h
    rw [hhops, List.get?_map] at hj
    cases hlt : (List.range m).get? j with
    | none => rw [hlt] at hj; simp at hj
    | some a =>
      rw [hlt] at hj
      have ha : a = j := by
        have := List.get?_mem hlt
        have hj2 : j < m := by
          by_contra hcon
          rw [List.get?_eq_none.mpr (by simpa using hcon)] at hlt
          exact absurd hlt (by simp)
        rw [List.get?_range hj2] at hlt
        simpa using hlt.symm
      rw [ha] at hj
      have hj3 : runHop t env j = hop := by simpa using hj
      rw [← hj3]
      simp [runHop, mkHop, decide_eq_true_iff]

/-- Fixture for the C3 witness. -/
def c3cfg : Tracer := { New with Address := "8.8.8.8", MaxTTL := 3, DNSLookup := false }

/-- Fixture for the C3 witness: a time-exceeded response at every hop. -/
def c3env : Nat → HopEnv :=
  fun _ =>
    { send := SendEvent.ok
      listen := ListenEvent.packet "10.0.0.1:0" 11
      latencyMs := 4
      lookup := fun _ => [] }

/-- Fixture for the C3 witness: the concrete run outcome. -/
def c3out : RunOutcome :=
  { hops :=
      [ { TTL := 1, Address := "10.0.0.1", Host := "", Latency := 4, Reachable := true }
      , { TTL := 2, Address := "10.0.0.1", Host := "", Latency := 4, Reachable := true }
      , { TTL := 3, Address := "10.0.0.1", Host := "", Latency := 4, Reachable := true } ]
    chan :=
      [ { TTL := 1, Address := "10.0.0.1", Host := "", Latency := 4, Reachable := true }
      , { TTL := 2, Address := "10.0.0.1", Host := "", Latency := 4, Reachable := true }
      , { TTL := 3, Address := "10.0.0.1", Host := "", Latency := 4, Reachable := true } ]
    err := none
    iterations := 3 }

/-- Witness for C3 on the first hop of a concrete run. -/
theorem hop_reachable_iff_time_exceeded_witness :
    ({ TTL := 1, Address := "10.0.0.1", Host := "", Latency := 4,
       Reachable := true } : Hop).Reachable = true ↔
      (receiveICMP (c3env 0).listen).2.1 = ICMPTypeTimeExceeded :=
  hop_reachable_iff_time_exceeded c3cfg c3env 4 c3out (by decide) 0 _ (by rfl)

/-- Element `j` of a map over `List.range`. -/
theorem range_map_get {β : Type} (m j : Nat) (f : Nat → β) (b : β)
    (hj : ((List.range m).map f).get? j = some b) : b = f j := by
  rw [List.get?_map] at hj
  cases hlt : (List.range m).get? j with
  | none =>
    rw [hlt] at hj
    simp at hj
  | some a =>
    rw [hlt] at hj
    have hj2 : j < m := by
      by_contra hcon
      rw [List.get?_eq_none.mpr (by simpa using hcon)] at hlt
      exact absurd hlt (by simp)
    rw [List.get?_range hj2] at hlt
    have ha : a = j := by simpa using hlt.symm
    rw [ha] at hj
    simpa using hj.symm

/-! ## Claim C4 -/

/-- Fixture for the C4 counterexample: a valid config allowing five TTLs. -/
def c4cfg : Tracer := { New with Address := "8.8.8.8", MaxTTL := 5, DNSLookup := false }

/-- Fixture for the C4 counterexample: the read deadline expires every hop. -/
def c4env : Nat → HopEnv :=
  fun _ =>
    { send := SendEvent.ok
      listen := ListenEvent.readFail
      latencyMs := 5
      lookup := fun _ => [] }

/-- Counterexample to C4: with `MaxTTL = 5` and a read timeout at the first
hop, the trace returns after a single iteration (recording a `"*"` hop, nil
error); TTLs 2…5 are never probed, so the orchestrator does not continue
probing subsequent TTLs after a timed-out hop. -/
theorem timeout_stops_trace_counterexample :
    Trace c4cfg c4env 10 =
      some { hops := [{ TTL := 1, Address := "*", Host := "", Latency := 5,
                        Reachable := false }]
             chan := [{ TTL := 1, Address := "*", Host := "", Latency := 5,
                        Reachable := false }]
             err := none
             iterations := 1 } ∧
    c4cfg.StartTTL = 1 ∧ c4cfg.MaxTTL = 5 :=
  ⟨by decide, rfl, rfl⟩

/-- Claim C4 (amended): a read timeout or parse failure terminates that hop's
listening attempt with the `"*"` sentinel and a non-nil listener error, and
the iteration stops the whole trace: the step returns the accumulated hops
(the `"*"` hop included) with a nil trace error; subsequent TTLs are not
probed. -/
theorem timeout_soft_stop (t : Tracer) (s : TraceState) (e : HopEnv)
    (hs : e.send = SendEvent.ok)
    (hl : e.listen = ListenEvent.readFail ∨ e.listen = ListenEvent.parseFail) :
    (receiveICMP e.listen).1 = "*" ∧
    (receiveICMP e.listen).2.2 ≠ none ∧
    traceStep t s e =
      StepResult.done (s.hops ++ [mkHop t s.ttl e])
        (s.chan ++ [mkHop t s.ttl e]) none := by
  have hrec : (receiveICMP e.listen).2.1 ≠ UnexpectedICMPType := by
    rcases hl with h | h <;> rw [h] <;> decide
  have herr : (receiveICMP e.listen).2.2 ≠ none := by
    rcases hl with h | h <;> rw [h] <;> simp [receiveICMP]
  refine ⟨?_, herr, ?_⟩
  · rcases hl with h | h <;> rw [h] <;> rfl
  · rw [traceStep_ok t s e hs]
    by_cases h1 : s.ttl + 1 > t.MaxTTL
    · rw [if_pos h1, if_pos hrec, if_pos hrec]
    · rw [if_neg h1, if_pos (Or.inl herr), if_pos hrec, if_pos hrec]

/-- Fixture for the C4 witness. -/
def c4wst : TraceState := { ttl := 1, hops := [], chan := [] }

/-- Fixture for the C4 witness: a read timeout. -/
def c4wenv : HopEnv :=
  { send := SendEvent.ok
    listen := ListenEvent.readFail
    latencyMs := 9
    lookup := fun _ => [] }

/-- Witness for the amended C4 at a concrete timed-out hop. -/
theorem timeout_soft_stop_witness :
    (receiveICMP c4wenv.listen).1 = "*" ∧
    (receiveICMP c4wenv.listen).2.2 ≠ none ∧
    traceStep New c4wst c4wenv =
      StepResult.done (c4wst.hops ++ [mkHop New c4wst.ttl c4wenv])
        (c4wst.chan ++ [mkHop New c4wst.ttl c4wenv]) none :=
  timeout_soft_stop New c4wst c4wenv rfl (Or.inl rfl)

/-! ## Claim C5 -/

/-- Fixture for the C5 counterexample: a valid config allowing five TTLs. -/
def c5cfg : Tracer := { New with Address := "8.8.8.8", MaxTTL := 5, DNSLookup := false }

/-- Fixture for the C5 counterexample: `icmp.ListenPacket` fails every hop. -/
def c5env : Nat → HopEnv :=
  fun _ =>
    { send := SendEvent.ok
      listen := ListenEvent.listenFail
      latencyMs := 2
      lookup := fun _ => [] }

/-- Counterexample to C5: when the listen socket cannot be created, `Trace`
stops after one iteration but returns a nil error (and even records a `"*"`
hop), so this failure is not surfaced to the caller as a non-nil error. -/
theorem listen_fail_nil_error_counterexample :
    Trace c5cfg c5env 10 =
      some { hops := [{ TTL := 1, Address := "*", Host := "", Latency := 2,
                        Reachable := false }]
             chan := [{ TTL := 1, Address := "*", Host := "", Latency := 2,
                        Reachable := false }]
             err := none
             iterations := 1 } :=
  by decide

/-- Claim C5 (amended): resolve, dial, syscall-connection, socket-option
(`Control`) and write failures abort the trace immediately with the partial
result and a non-nil descriptive error; a listen-socket creation failure does
not — it ends the trace like the other listener failures, with the partial
result (a `"*"` hop appended) and a nil error. -/
theorem hard_vs_listener_errors (t : Tracer) (s : TraceState) (e : HopEnv) :
    (e.send ≠ SendEvent.ok →
      ∃ msg, traceStep t s e = StepResult.done s.hops s.chan (some msg)) ∧
    (e.send = SendEvent.ok → e.listen = ListenEvent.listenFail →
      traceStep t s e =
        StepResult.done (s.hops ++ [mkHop t s.ttl e])
          (s.chan ++ [mkHop t s.ttl e]) none) := by
  constructor
  · exact traceStep_sendFail t s e
  · intro hs hl
    have hrec : (receiveICMP e.listen).2.1 ≠ UnexpectedICMPType := by
      rw [hl]
      decide
    have herr : (receiveICMP e.listen).2.2 ≠ none := by
      rw [hl]
      simp [receiveICMP]
    rw [traceStep_ok t s e hs]
    by_cases h1 : s.ttl + 1 > t.MaxTTL
    · rw [if_pos h1, if_pos hrec, if_pos hrec]
    · rw [if_neg h1, if_pos (Or.inl herr), if_pos hrec, if_pos hrec]

/-- Fixture for the C5 witness. -/
def c5wst : TraceState := { ttl := 2, hops := [], chan := [] }

/-- Fixture for the C5 witness: a resolve failure. -/
def c5wenvA : HopEnv :=
  { send := SendEvent.resolveFail
    listen := ListenEvent.readFail
    latencyMs := 0
    lookup := fun _ => [] }

/-- Fixture for the C5 witness: a listen-socket creation failure. -/
def c5wenvB : HopEnv :=
  { send := SendEvent.ok
    listen := ListenEvent.listenFail
    latencyMs := 0
    lookup := fun _ => [] }

/-- Witness for the amended C5 at a concrete resolve failure and a concrete
listen-socket failure. -/
theorem hard_vs_listener_errors_witness :
    (∃ msg, traceStep New c5wst c5wenvA =
      StepResult.done c5wst.hops c5wst.chan (some msg)) ∧
    traceStep New c5wst c5wenvB =
      StepResult.done (c5wst.hops ++ [mkHop New c5wst.ttl c5wenvB])
        (c5wst.chan ++ [mkHop New c5wst.ttl c5wenvB]) none :=
  ⟨(hard_vs_listener_errors New c5wst c5wenvA).1 (by decide),
   (hard_vs_listener_errors New c5wst c5wenvB).2 rfl rfl⟩

/-! ## Claim C6 -/

/-- Claim C6: an ICMP type other than time exceeded and destination
unreachable yields the distinct `UnexpectedICMPType` result (different from
the `0` of a timeout and from both valid classifications) with responder
address `"*"`, and the iteration records and publishes no hop; the two valid
classifications return the responder's address and a nil error. -/
theorem unexpected_type_not_recorded (peer : String) (ty : Int)
    (h11 : ty ≠ ICMPTypeTimeExceeded) (h3 : ty ≠ ICMPTypeDestinationUnreachable)
    (t : Tracer) (s : TraceState) (e : HopEnv)
    (hs : e.send = SendEvent.ok) (hl : e.listen = ListenEvent.packet peer ty) :
    receiveICMP (ListenEvent.packet peer ty) =
      ("*", UnexpectedICMPType, some "unexpected ICMP message type received") ∧
    UnexpectedICMPType ≠ (receiveICMP ListenEvent.readFail).2.1 ∧
    UnexpectedICMPType ≠ ICMPTypeTimeExceeded ∧
    UnexpectedICMPType ≠ ICMPTypeDestinationUnreachable ∧
    traceStep t s e = StepResult.done s.hops s.chan none ∧
    (∀ q : String, receiveICMP (ListenEvent.packet q ICMPTypeTimeExceeded) =
      (addressOf q, ICMPTypeTimeExceeded, none)) ∧
    (∀ q : String,
      receiveICMP (ListenEvent.packet q ICMPTypeDestinationUnreachable) =
        (addressOf q, ICMPTypeDestinationUnreachable, none)) := by
  have hrecv : receiveICMP (ListenEvent.packet peer ty) =
      ("*", UnexpectedICMPType, some "unexpected ICMP message type received") := by
    simp only [receiveICMP]
    rw [if_neg h11, if_neg h3]
  refine ⟨hrecv, by decide, by decide, by decide, ?_, ?_, ?_⟩
  · have hu : ¬ ((receiveICMP e.listen).2.1 ≠ UnexpectedICMPType) := by
      rw [hl, hrecv]
      simp
    have herr : (receiveICMP e.listen).2.2 ≠ none := by
      rw [hl, hrecv]
      simp
    rw [traceStep_ok t s e hs]
    by_cases h1 : s.ttl + 1 > t.MaxTTL
    · rw [if_pos h1, if_neg hu, if_neg hu]
    · rw [if_neg h1, if_pos (Or.inl herr), if_neg hu, if_neg hu]
  · intro q
    simp [receiveICMP]
  · intro q
    simp [receiveICMP, ICMPTypeTimeExceeded, ICMPTypeDestinationUnreachable]

/-- Fixture for the C6 witness. -/
def c6st : TraceState := { ttl := 1, hops := [], chan := [] }

/-- Fixture for the C6 witness: an echo-reply (type 0) packet. -/
def c6env : HopEnv :=
  { send := SendEvent.ok
    listen := ListenEvent.packet "5.6.7.8:0" 0
    latencyMs := 3
    lookup := fun _ => [] }

/-- Witness for C6 at a concrete unexpected (echo-reply) packet. -/
theorem unexpected_type_not_recorded_witness :
    receiveICMP (ListenEvent.packet "5.6.7.8:0" 0) =
      ("*", UnexpectedICMPType, some "unexpected ICMP message type received") ∧
    traceStep New c6st c6env = StepResult.done c6st.hops c6st.chan none ∧
    receiveICMP (ListenEvent.packet "1.2.3.4:5678" ICMPTypeTimeExceeded) =
      (addressOf "1.2.3.4:5678", ICMPTypeTimeExceeded, none) := by
  obtain ⟨ha, _, _, _, hstep, hTE, _⟩ :=
    unexpected_type_not_recorded "5.6.7.8:0" 0 (by decide) (by decide)
      New c6st c6env rfl rfl
  exact ⟨ha, hstep, hTE "1.2.3.4:5678"⟩

/-! ## Claim C7 -/

/-- Claim C7: the hops of a returned `TraceResult` have strictly increasing
TTLs — hop `j` has TTL `StartTTL + j` — and the live channel received
exactly the recorded hops in the same order (the two lists are equal). -/
theorem hops_ttl_ascending_chan_ordered (t : Tracer) (env : Nat → HopEnv)
    (fuel : Nat) (out : RunOutcome) (h : Trace t env fuel = some out) :
    out.chan = out.hops ∧
    List.Pairwise (fun a b : Hop => a.TTL < b.TTL) out.hops ∧
    (∀ (j : Nat) (hop : Hop), out.hops.get? j = some hop →
      hop.TTL = t.StartTTL + (j : Int)) := by
  unfold Trace at h
  split_ifs at h with h1 h2 h3
  · simp only [Option.some.injEq] at h
    rw [← h]
    exact ⟨rfl, by simp, by intro j hop hj; simp at hj⟩
  · simp only [Option.some.injEq] at h
    rw [← h]
    exact ⟨rfl, by simp, by intro j hop hj; simp at hj⟩
  · simp only [Option.some.injEq] at h
    rw [← h]
    exact ⟨rfl, by simp, by intro j hop hj; simp at hj⟩
  · obtain ⟨m, hchan, hhops⟩ :=
      traceLoop_shape t env fuel 0 _ out (by simp) rfl rfl h
    refine ⟨hchan, ?_, ?_⟩
    · rw [hhops, List.pairwise_map]
      refine (List.pairwise_lt_range m).imp ?_
      intro a b hab
      show (runHop t env a).TTL < (runHop t env b).TTL
      simp only [runHop, mkHop]
      omega
    · intro j hop hj
      rw [hhops] at hj
      rw [range_map_get m j (runHop t env) hop hj]
      simp [runHop, mkHop]

/-- Fixture for the C7 witness. -/
def c7cfg : Tracer := { New with Address := "8.8.8.8", MaxTTL := 2, DNSLookup := false }

/-- Fixture for the C7 witness: time-exceeded responses from two routers. -/
def c7env : Nat → HopEnv :=
  fun j =>
    { send := SendEvent.ok
      listen := ListenEvent.packet (if j = 0 then "10.0.0.1:0" else "10.0.0.2:0") 11
      latencyMs := 6
      lookup := fun _ => [] }

/-- Fixture for the C7 witness: the concrete run outcome. -/
def c7out : RunOutcome :=
  { hops :=
      [ { TTL := 1, Address := "10.0.0.1", Host := "", Latency := 6, Reachable := true }
      , { TTL := 2, Address := "10.0.0.2", Host := "", Latency := 6, Reachable := true } ]
    chan :=
      [ { TTL := 1, Address := "10.0.0.1", Host := "", Latency := 6, Reachable := true }
      , { TTL := 2, Address := "10.0.0.2", Host := "", Latency := 6, Reachable := true } ]
    err := none
    iterations := 2 }

/-- Witness for C7 on a concrete two-hop run. -/
theorem hops_ttl_ascending_chan_ordered_witness :
    c7out.chan = c7out.hops ∧
    ({ TTL := 2, Address := "10.0.0.2", Host := "", Latency := 6,
       Reachable := true } : Hop).TTL = c7cfg.StartTTL + (1 : Int) := by
  obtain ⟨hc, _, hident⟩ :=
    hops_ttl_ascending_chan_ordered c7cfg c7env 3 c7out (by decide)
  exact ⟨hc, hident 1 _ (by rfl)⟩

/-! ## Claim C8 -/

/-- Fixture for the C8 counterexample: valid config with `MaxTTL = 0`. -/
def c8cfg : Tracer := { New with Address := "8.8.8.8", MaxTTL := 0, DNSLookup := false }

/-- Fixture for the C8 counterexample. -/
def c8env : Nat → HopEnv :=
  fun _ =>
    { send := SendEvent.ok
      listen := ListenEvent.packet "10.0.0.1:0" 11
      latencyMs := 1
      lookup := fun _ => [] }

/-- Counterexample to C8: this valid configuration (it passes validation)
has `MaxTTL − StartTTL + 1 = 0`, yet `Trace` performs `1 > 0` probe
iterations, so the claimed bound of `MaxTTL − StartTTL + 1` iterations fails
when `MaxTTL < StartTTL`. -/
theorem iteration_bound_counterexample :
    Trace c8cfg c8env 1 =
      some { hops := [{ TTL := 1, Address := "10.0.0.1", Host := "",
                        Latency := 1, Reachable := true }]
             chan := [{ TTL := 1, Address := "10.0.0.1", Host := "",
                        Latency := 1, Reachable := true }]
             err := none
             iterations := 1 } ∧
    c8cfg.MaxTTL - c8cfg.StartTTL + 1 = 0 ∧
    (1 : Int) > c8cfg.MaxTTL - c8cfg.StartTTL + 1 :=
  ⟨by decide, by decide, by decide⟩

/-- Claim C8 (amended): for every valid configuration `Trace` terminates,
within at most `max 1 (MaxTTL − StartTTL + 1)` probe iterations (each
iteration's listen is bounded by the read deadline); when
`StartTTL ≤ MaxTTL` this bound is the claimed `MaxTTL − StartTTL + 1`. -/
theorem trace_terminates_bounded (t : Tracer) (env : Nat → HopEnv)
    (h1 : 1 ≤ t.StartTTL) (h2 : t.Address ≠ "")
    (h3 : 1 ≤ t.Port) (h4 : t.Port ≤ 65535) :
    ∃ out : RunOutcome,
      Trace t env ((t.MaxTTL - t.StartTTL).toNat + 1) = some out ∧
      out.iterations ≤ (t.MaxTTL - t.StartTTL).toNat + 1 ∧
      (t.StartTTL ≤ t.MaxTTL →
        (out.iterations : Int) ≤ t.MaxTTL - t.StartTTL + 1) := by
  unfold Trace
  rw [if_neg (by omega), if_neg h2, if_neg (by omega)]
  obtain ⟨out, hout, hiter⟩ :=
    traceLoop_total t env ((t.MaxTTL - t.StartTTL).toNat + 1) 0
      { ttl := t.StartTTL, hops := [], chan := [] } (Nat.le_refl _)
  refine ⟨out, hout, by simpa using hiter, ?_⟩
  intro hle
  have hiter2 : out.iterations ≤ 0 + (t.MaxTTL - t.StartTTL).toNat + 1 := hiter
  omega

/-- Fixture for the C8 witness: the default config with a target set. -/
def c8wcfg : Tracer := { New with Address := "8.8.8.8" }

/-- Fixture for the C8 witness: the read deadline expires every hop. -/
def c8wenv : Nat → HopEnv :=
  fun _ =>
    { send := SendEvent.ok
      listen := ListenEvent.readFail
      latencyMs := 3000
      lookup := fun _ => [] }

/-- Witness for the amended C8 on the default configuration. -/
theorem trace_terminates_bounded_witness :
    ∃ out : RunOutcome,
      Trace c8wcfg c8wenv ((c8wcfg.MaxTTL - c8wcfg.StartTTL).toNat + 1) =
        some out ∧
      out.iterations ≤ (c8wcfg.MaxTTL - c8wcfg.StartTTL).toNat + 1 := by
  obtain ⟨out, ho, hi, _⟩ :=
    trace_terminates_bounded c8wcfg c8wenv
      (by decide) (by decide) (by decide) (by decide)
  exact ⟨out, ho, hi⟩

/-! ## Claim C9 -/

/-- Claim C9: running the same trace with `DNSLookup` disabled yields
exactly the enabled run's outcome with every hop's `Host` erased to `""`:
each hop's `TTL`, `Address`, `Latency` and `Reachable` are unchanged, and
the same hops are recorded and published. -/
theorem dns_disabled_scrubs_host_only (t : Tracer) (env : Nat → HopEnv)
    (fuel : Nat) (out : RunOutcome) (h : Trace t env fuel = some out) :
    Trace { t with DNSLookup := false } env fuel = some (scrubOutcome out) ∧
    (∀ hop ∈ (scrubOutcome out).hops, hop.Host = "") ∧
    (∀ j : Nat,
      ((scrubOutcome out).hops.get? j).map
          (fun hop => (hop.TTL, hop.Address, hop.Latency, hop.Reachable)) =
        (out.hops.get? j).map
          (fun hop => (hop.TTL, hop.Address, hop.Latency, hop.Reachable))) := by
  refine ⟨?_, ?_, ?_⟩
  · rw [Trace_scrub, h]
    rfl
  · intro hop hm
    simp only [scrubOutcome, List.mem_map] at hm
    obtain ⟨a, _, ha⟩ := hm
    rw [← ha]
    rfl
  · intro j
    have hmap : (scrubOutcome out).hops.get? j =
        (out.hops.get? j).map scrubHost :=
      List.get?_map scrubHost out.hops j
    rw [hmap]
    cases out.hops.get? j with
    | none => rfl
    | some a => rfl

/-- Fixture for the C9 witness: DNS lookup enabled (the default). -/
def c9cfg : Tracer := { New with Address := "8.8.8.8", MaxTTL := 2 }

/-- Fixture for the C9 witness: the resolver knows the router's name. -/
def c9env : Nat → HopEnv :=
  fun _ =>
    { send := SendEvent.ok
      listen := ListenEvent.packet "10.0.0.1:0" 11
      latencyMs := 4
      lookup := fun a => if a = "10.0.0.1" then ["router.example."] else [] }

/-- Fixture for the C9 witness: the outcome of the enabled run. -/
def c9out : RunOutcome :=
  { hops :=
      [ { TTL := 1, Address := "10.0.0.1", Host := "router.example.",
          Latency := 4, Reachable := true }
      , { TTL := 2, Address := "10.0.0.1", Host := "router.example.",
          Latency := 4, Reachable := true } ]
    chan :=
      [ { TTL := 1, Address := "10.0.0.1", Host := "router.example.",
          Latency := 4, Reachable := true }
      , { TTL := 2, Address := "10.0.0.1", Host := "router.example.",
          Latency := 4, Reachable := true } ]
    err := none
    iterations := 2 }

/-- Witness for C9 on a concrete two-hop run with resolvable addresses. -/
theorem dns_disabled_scrubs_host_only_witness :
    Trace { c9cfg with DNSLookup := false } c9env 3 = some (scrubOutcome c9out) :=
  (dns_disabled_scrubs_host_only c9cfg c9env 3 c9out (by decide)).1

/-! ## Claim C10 -/

/-- Claim C10: `MaxTTL` is not validated against `StartTTL`: any
configuration passing validation — even with `MaxTTL < StartTTL` — runs
exactly one probe/listen iteration (the `ttl > MaxTTL` check only happens
after the first iteration's probe and listen), returning a nil error and
recording one hop whenever the classification was not
`UnexpectedICMPType`. -/
theorem maxttl_not_validated_one_iteration (t : Tracer) (env : Nat → HopEnv)
    (fuel : Nat) (h1 : 1 ≤ t.StartTTL) (h2 : t.Address ≠ "")
    (h3 : 1 ≤ t.Port) (h4 : t.Port ≤ 65535)
    (hmax : t.MaxTTL < t.StartTTL) (hok : (env 0).send = SendEvent.ok) :
    ∃ out : RunOutcome, Trace t env (fuel + 1) = some out ∧
      out.iterations = 1 ∧ out.err = none ∧
      ((receiveICMP (env 0).listen).2.1 ≠ UnexpectedICMPType →
        out.hops = [mkHop t t.StartTTL (env 0)]) ∧
      ((receiveICMP (env 0).listen).2.1 = UnexpectedICMPType →
        out.hops = []) := by
  unfold Trace
  rw [if_neg (by omega), if_neg h2, if_neg (by omega)]
  simp only [traceLoop]
  rw [traceStep_ok _ _ _ hok,
    if_pos (show t.StartTTL + 1 > t.MaxTTL by omega)]
  by_cases hrec : (receiveICMP (env 0).listen).2.1 ≠ UnexpectedICMPType
  · simp only [if_pos hrec]
    exact ⟨_, rfl, rfl, rfl, fun _ => rfl, fun hu => absurd hu hrec⟩
  · simp only [if_neg hrec]
    exact ⟨_, rfl, rfl, rfl, fun hr => absurd hr hrec, fun _ => rfl⟩

/-- Fixture for the C10 witness: `MaxTTL = 0` but otherwise valid. -/
def c10cfg : Tracer := { New with Address := "localhost", MaxTTL := 0 }

/-- Fixture for the C10 witness: a destination-unreachable reply. -/
def c10env : Nat → HopEnv :=
  fun _ =>
    { send := SendEvent.ok
      listen := ListenEvent.packet "127.0.0.1:0" 3
      latencyMs := 2
      lookup := fun _ => [] }

/-- Witness for C10: with `MaxTTL = 0 < StartTTL = 1`, exactly one iteration
runs and one hop is recorded. -/
theorem maxttl_not_validated_one_iteration_witness :
    ∃ out : RunOutcome, Trace c10cfg c10env (4 + 1) = some out ∧
      out.iterations = 1 ∧
      out.hops = [mkHop c10cfg c10cfg.StartTTL (c10env 0)] := by
  obtain ⟨out, ho, hi, _, hrec, _⟩ :=
    maxttl_not_validated_one_iteration c10cfg c10env 4
      (by decide) (by decide) (by decide) (by decide) (by decide) rfl
  exact ⟨out, ho, hi, hrec (by decide)⟩

end Traceroute
